import Mathlib

/-!
Verification of the stock-scanner dashboard (`app.py`) against its
specification.  The Python source is shallowly embedded: numeric values are
modelled by exact rationals `ℚ`, JSON-ish records by Lean structures, and
fallible operations by `Option`.  Definitions come first, then the theorems.
-/

attribute [local semireducible] Rat.mul Rat.add Rat.sub Rat.inv

namespace StockScanner

/-! ## Numeric helpers -/

/-- Truncation toward zero of a rational: models Python `int(x)` applied to a
number.  Stated computably via truncating integer division so that concrete
instances evaluate inside `decide`. -/
def truncQ (q : ℚ) : ℤ := q.num.tdiv q.den

/-- Floor of a rational, computably, via Euclidean integer division. -/
def floorQ (q : ℚ) : ℤ := q.num / q.den

/-- Round a rational to the nearest integer with ties going to the even
integer: models the rounding performed by Python `round(x)` and by the string
format `:,.0f` on exactly representable values. -/
def roundHalfEven (q : ℚ) : ℤ :=
  if q - floorQ q < 1/2 then floorQ q
  else if 1/2 < q - floorQ q then floorQ q + 1
  else if Even (floorQ q) then floorQ q else floorQ q + 1

/-- Round to two decimal places, ties to even: Python `round(x, 2)` on exactly
representable values. -/
def round2 (q : ℚ) : ℚ := (roundHalfEven (q * 100) : ℚ) / 100

/-- `q` is a whole number of cents, i.e. `q * 100` is an integer. -/
def isCents (q : ℚ) : Prop := (q * 100).den = 1

instance decidableIsCents (q : ℚ) : Decidable (isCents q) :=
  inferInstanceAs (Decidable ((q * 100).den = 1))

/-! ## Position-sizing annotator (`api_data`, `app.py` lines 187–215) -/

/-- Per-row Shares/Cost annotation performed by `api_data` (`app.py` lines
192–206).  The two `Option ℚ` arguments are the results of
`float(stock.get('Pivot', 0))` and `float(stock.get('Stop', 0))`: `none`
models a `ValueError` raised by `float`, a missing key is `some 0`.  The
result `some (shares, cost)` means `stock['Shares'] = str(shares)` and
`stock['Cost'] = f"${shares * pivot:,.0f}"` whose displayed dollar amount is
`cost`; a `none` result means both fields are set to the empty string. -/
def annotateStock (riskPerTrade : ℚ) (pivot stop : Option ℚ) : Option (ℤ × ℤ) :=
  match pivot, stop with
  | some pivot, some stop =>
    if pivot > 0 ∧ stop > 0 ∧ pivot > stop then
      let shares := truncQ (riskPerTrade / (pivot - stop))
      some (shares, roundHalfEven ((shares : ℚ) * pivot))
    else
      none
  | _, _ => none

/-! ## Covered-call trades (`app.py` lines 553–708) -/

/-- A covered-call trade record as built by `api_calls_add` (`app.py` lines
609–626).  `ticker = none` and `stock_price_at_sell = none` model records
lacking those keys (the code reads them with `t.get(key, default)`); the
`created_at` timestamp is omitted as no behaviour reads it. -/
structure CallsTrade where
  id : ℕ
  ticker : Option String
  sell_date : String
  expiry : String
  strike : ℚ
  contracts : ℤ
  premium_per_contract : ℚ
  premium_total : ℚ
  delta : ℚ
  stock_price_at_sell : Option ℚ
  status : String
  close_date : Option String
  close_price : Option ℚ
  pnl : Option ℚ
  notes : String
  deriving DecidableEq

/-- The validated request fields consumed by `api_calls_add`. -/
structure CallRequest where
  ticker : String
  sell_date : String
  expiry : String
  strike : ℚ
  contracts : ℤ
  premium_per_contract : ℚ
  delta : ℚ
  stock_price : ℚ
  notes : String

/-- Id allocation of `api_calls_add`:
`max((t.get('id', 0) for t in trades), default=0) + 1` (`app.py` line 610). -/
def nextCallId (trades : List CallsTrade) : ℕ :=
  (trades.map fun t => t.id).foldr max 0 + 1

/-- The trade record appended by `api_calls_add` (`app.py` lines 609–627). -/
def mkCallTrade (req : CallRequest) (trades : List CallsTrade) : CallsTrade :=
  { id := nextCallId trades
    ticker := some req.ticker
    sell_date := req.sell_date
    expiry := req.expiry
    strike := req.strike
    contracts := req.contracts
    premium_per_contract := req.premium_per_contract
    premium_total := round2 (req.premium_per_contract * (req.contracts : ℚ) * 100)
    delta := req.delta
    stock_price_at_sell := some req.stock_price
    status := "open"
    close_date := none
    close_price := none
    pnl := none
    notes := req.notes }

/-- `api_calls_add` appends the new trade to the stored list. -/
def apiCallsAdd (req : CallRequest) (trades : List CallsTrade) : List CallsTrade :=
  trades ++ [mkCallTrade req trades]

/-- `api_calls_delete` keeps every trade whose id differs (`app.py` line 662). -/
def apiCallsDelete (tradeId : ℕ) (trades : List CallsTrade) : List CallsTrade :=
  trades.filter fun t => t.id ≠ tradeId

/-- The mutation `api_calls_close` applies to the matched trade (`app.py`
lines 640–653).  `buybackPrice` is `data.get('buyback_price', 0)`; `notesReq`
is `data.get('notes', ...)`, `none` when the request has no notes field. -/
def closeCall (status closeDate : String) (buybackPrice : ℚ) (notesReq : Option String)
    (t : CallsTrade) : CallsTrade :=
  if status = "expired" then
    { t with status := status, close_date := some closeDate,
             pnl := some t.premium_total, notes := notesReq.getD t.notes }
  else if status = "called_away" then
    let priceAtSell := t.stock_price_at_sell.getD 0
    let appreciation := (t.strike - priceAtSell) * (t.contracts : ℚ) * 100
    { t with status := status, close_date := some closeDate,
             pnl := some (round2 (t.premium_total + appreciation)),
             notes := notesReq.getD t.notes }
  else
    let buyback := buybackPrice * (t.contracts : ℚ) * 100
    { t with status := status, close_date := some closeDate,
             pnl := some (round2 (t.premium_total - buyback)),
             close_price := some buybackPrice, notes := notesReq.getD t.notes }

/-- `api_calls_close` rewrites the first trade matching the id (the loop
breaks after the first match) and leaves the rest unchanged. -/
def apiCallsClose (tradeId : ℕ) (status closeDate : String) (buybackPrice : ℚ)
    (notesReq : Option String) : List CallsTrade → List CallsTrade
  | [] => []
  | t :: ts =>
    if t.id = tradeId then closeCall status closeDate buybackPrice notesReq t :: ts
    else t :: apiCallsClose tradeId status closeDate buybackPrice notesReq ts

/-- One API operation against the covered-call store. -/
inductive CallsOp where
  | add (req : CallRequest)
  | del (tradeId : ℕ)

/-- Run a sequence of add/delete operations from an initial store, recording
the id assigned by every add in order. -/
def runCallsOps (ops : List CallsOp) : List CallsTrade × List ℕ :=
  ops.foldl
    (fun acc op =>
      match op with
      | .add req => (apiCallsAdd req acc.1, acc.2 ++ [nextCallId acc.1])
      | .del i => (apiCallsDelete i acc.1, acc.2))
    ([], [])

/-- A concrete well-formed add request used for concrete instances. -/
def sampleCallRequest : CallRequest :=
  ⟨"SPY", "2025-01-02", "2025-01-17", 100, 1, 1, 1/10, 0, ""⟩

/-- The open trade of the spec's worked example: strike 105, 10 contracts,
premium_total 2500, stock price 100 at sell. -/
def sampleCalledAwayTrade : CallsTrade :=
  ⟨1, some "SPY", "2025-01-02", "2025-01-17", 105, 10, 5/2, 2500, 1/10,
   some 100, "open", none, none, none, ""⟩

/-- The summary record produced by `_summarize` inside `_calls_summary`
(`app.py` lines 668–694).  `open_count` is the `'open'` key. -/
structure CallsSummary where
  total_premium : ℚ
  total_pnl : ℚ
  total_trades : ℕ
  expired : ℕ
  called_away : ℕ
  open_count : ℕ
  weekly_avg : ℚ
  annualized_yield : ℚ
  deriving DecidableEq

/-- Ticker of a trade: `t.get('ticker', 'SPY')`. -/
def tickerKey (t : CallsTrade) : String := t.ticker.getD "SPY"

/-- `_summarize` (`app.py` lines 668–694).  `sorted(set(...))` over the
month prefixes is modelled by `dedup` — only its length is consumed. -/
def summarizeCalls (subset : List CallsTrade) (capital : ℚ) : CallsSummary :=
  if subset = [] then ⟨0, 0, 0, 0, 0, 0, 0, 0⟩
  else
    let total_premium := (subset.map fun t => t.premium_total).sum
    let closed := subset.filter fun t => t.status ≠ "open"
    let total_pnl := (closed.map fun t => t.pnl.getD t.premium_total).sum
    let openTrades := subset.filter fun t => t.status = "open"
    let expiredTrades := subset.filter fun t => t.status = "expired"
    let calledTrades := subset.filter fun t => t.status = "called_away"
    let months : ℕ :=
      max (((subset.filter fun t => t.sell_date ≠ "").map
        fun t => t.sell_date.take 7).dedup.length) 1
    let annualized := total_premium / (months : ℚ) * 12 / max capital 1 * 100
    ⟨total_premium, total_pnl, subset.length, expiredTrades.length, calledTrades.length,
      openTrades.length, total_premium / ((max subset.length 1 : ℕ) : ℚ), annualized⟩

/-- `sorted(set(t.get('ticker', 'SPY') for t in trades)) if trades else []`
(`app.py` line 700). -/
def callsTickers (trades : List CallsTrade) : List String :=
  if trades = [] then [] else ((trades.map tickerKey).dedup).insertionSort (· ≤ ·)

/-- `_calls_summary` (`app.py` lines 667–708): the overall summary plus the
per-ticker breakdown (`by_ticker`, modelled as an association list in ticker
order). -/
def callsSummary (trades : List CallsTrade) : CallsSummary × List (String × CallsSummary) :=
  (summarizeCalls trades 100000,
   (callsTickers trades).map fun tk =>
     (tk, summarizeCalls (trades.filter fun t => tickerKey t = tk) 100000))

/-! ## Stock positions (`app.py` lines 716–908) -/

/-- A stock position as built by `api_positions_add` (`app.py` lines
780–798).  `stop_price = none` models a record lacking the key (the summary
reads it via `p.get('stop_price', p['entry_price'])`); `close_price` and
`pnl` are `None` until the position is closed; `created_at` is omitted as no
behaviour reads it. -/
structure Position where
  id : ℕ
  ticker : String
  account : String
  trade_type : String
  entry_date : String
  entry_price : ℚ
  shares : ℤ
  cost_basis : ℚ
  stop_price : Option ℚ
  target_price : ℚ
  setup_type : String
  status : String
  close_date : Option String
  close_price : Option ℚ
  pnl : Option ℚ
  notes : String
  deriving DecidableEq

/-- The validated request fields consumed by `api_positions_add`.
`stop_price`/`target_price` are `none` when absent or falsy in the request
(Python: `float(data.get('stop_price', 0)) if data.get('stop_price') else 0`). -/
structure PositionRequest where
  ticker : String
  account : Option String
  trade_type : String
  entry_date : String
  entry_price : ℚ
  shares : ℤ
  stop_price : Option ℚ
  target_price : Option ℚ
  setup_type : String
  notes : String

/-- `float(data.get(key, 0)) if data.get(key) else 0`: a missing key or a
falsy value (0) yields 0, otherwise the value itself. -/
def priceFromRequest (v : Option ℚ) : ℚ :=
  match v with
  | some x => if x = 0 then 0 else x
  | none => 0

/-- Id allocation of `api_positions_add` (`app.py` line 781), same rule as
the covered-call store. -/
def nextPositionId (positions : List Position) : ℕ :=
  (positions.map fun p => p.id).foldr max 0 + 1

/-- The position record appended by `api_positions_add` (`app.py` lines
780–799).  Note that the stored `stop_price` key is always present: a request
without a stop stores `0`, not the entry price. -/
def mkPosition (req : PositionRequest) (positions : List Position) : Position :=
  { id := nextPositionId positions
    ticker := req.ticker
    account := req.account.getD "default"
    trade_type := req.trade_type
    entry_date := req.entry_date
    entry_price := req.entry_price
    shares := req.shares
    cost_basis := round2 ((req.shares : ℚ) * req.entry_price)
    stop_price := some (priceFromRequest req.stop_price)
    target_price := priceFromRequest req.target_price
    setup_type := req.setup_type
    status := "open"
    close_date := none
    close_price := none
    pnl := none
    notes := req.notes }

/-- `api_positions_add` appends the new position to the stored list. -/
def apiPositionsAdd (req : PositionRequest) (positions : List Position) : List Position :=
  positions ++ [mkPosition req positions]

/-- The closing branch of `api_positions_update` (`app.py` lines 818–827):
sets status, close price/date, and P&L with the direction given by
`trade_type`. -/
def closePosition (closePrice : ℚ) (closeDate : String) (p : Position) : Position :=
  { p with status := "closed", close_price := some closePrice,
           close_date := some closeDate,
           pnl := some (if p.trade_type = "long"
                        then round2 ((closePrice - p.entry_price) * (p.shares : ℚ))
                        else round2 ((p.entry_price - closePrice) * (p.shares : ℚ))) }

/-- Planned per-share risk of a position (`app.py` line 876):
`abs(p['entry_price'] - p.get('stop_price', p['entry_price']))`. -/
def riskOf (p : Position) : ℚ := |p.entry_price - p.stop_price.getD p.entry_price|

/-- Realized per-share P&L (`app.py` line 878), direction flipped by
`trade_type`.  The code reads `p['close_price']` directly; a closed position
always carries a numeric close price, and `getD 0` totalizes the otherwise
unreachable missing case. -/
def pnlPerShare (p : Position) : ℚ :=
  if p.trade_type = "long" then p.close_price.getD 0 - p.entry_price
  else p.entry_price - p.close_price.getD 0

/-- The `r_multiples` list built by the loop in `_positions_summary`
(`app.py` lines 874–880): over closed positions, keep `pnl_per_share / risk`
whenever `risk > 0`. -/
def rMultiples (subset : List Position) : List ℚ :=
  (subset.filter fun p => p.status = "closed").filterMap fun p =>
    if riskOf p > 0 then some (pnlPerShare p / riskOf p) else none

/-- The summary record of `_summarize` inside `_positions_summary`
(`app.py` lines 849–893). -/
structure PositionsSummary where
  total_capital : ℚ
  total_pnl : ℚ
  open_count : ℕ
  closed_count : ℕ
  win_count : ℕ
  loss_count : ℕ
  win_rate : ℚ
  avg_r_multiple : ℚ
  deriving DecidableEq

/-- `_summarize` of `_positions_summary` (`app.py` lines 849–893). -/
def summarizePositions (subset : List Position) : PositionsSummary :=
  if subset = [] then ⟨0, 0, 0, 0, 0, 0, 0, 0⟩
  else
    let openPositions := subset.filter fun p => p.status = "open"
    let closedPositions := subset.filter fun p => p.status = "closed"
    let total_capital := (openPositions.map fun p => p.cost_basis).sum
    let total_pnl := (closedPositions.map fun p => p.pnl.getD 0).sum
    let wins := closedPositions.filter fun p => p.pnl.getD 0 > 0
    let losses := closedPositions.filter fun p => p.pnl.getD 0 ≤ 0
    let win_rate :=
      if closedPositions ≠ [] then (wins.length : ℚ) / (closedPositions.length : ℚ) * 100 else 0
    let rs := rMultiples subset
    let avg_r := if rs ≠ [] then rs.sum / (rs.length : ℚ) else 0
    ⟨total_capital, total_pnl, openPositions.length, closedPositions.length,
      wins.length, losses.length, win_rate, avg_r⟩

/-- A request with no stop price: the stored position gets `stop_price = 0`. -/
def samplePositionRequest : PositionRequest :=
  ⟨"ABC", none, "long", "2025-01-02", 10, 10, none, none, "", ""⟩

/-- That position closed at 15: entry 10, stop stored as 0, long. -/
def samplePositionClosed : Position :=
  closePosition 15 "2025-02-01" (mkPosition samplePositionRequest [])

/-- The same record with the `stop_price` key removed entirely. -/
def samplePositionNoStopKey : Position :=
  { samplePositionClosed with stop_price := none }

/-! ## Atomic JSON store (`app.py` lines 98–124) -/

/-- A JSON document, the unit persisted by the store. -/
inductive Json where
  | null
  | bool (b : Bool)
  | num (q : ℚ)
  | str (s : String)
  | arr (elems : List Json)
  | obj (fields : List (String × Json))

/-- The file system as a map from path to the JSON document the file at that
path parses to (serialization of a `Json` value is faithful, so files hold
the documents themselves). -/
structure FileSystem where
  files : String → Option Json

/-- Writing a complete serialized document to a path (`json.dump` into an
open file). -/
def writeFile (fs : FileSystem) (path : String) (doc : Json) : FileSystem :=
  ⟨fun p => if p = path then some doc else fs.files p⟩

/-- `os.rename(src, dst)`: the destination takes the source's content and the
source disappears. -/
def renameFile (fs : FileSystem) (src dst : String) : FileSystem :=
  ⟨fun p => if p = dst then fs.files src else if p = src then none else fs.files p⟩

/-- `save_json_file` (`app.py` lines 108–124): write the document to the
`.tmp` sibling, then atomically rename it over the target.  The advisory
lock serializes writers and does not affect the stored content. -/
def save_json_file (fs : FileSystem) (path : String) (doc : Json) : FileSystem :=
  renameFile (writeFile fs (path ++ ".tmp") doc) (path ++ ".tmp") path

/-- `load_json_file` (`app.py` lines 98–106): parsed content of the file, or
the default when the file is absent (or unreadable). -/
def load_json_file (fs : FileSystem) (path : String) (dflt : Json) : Json :=
  (fs.files path).getD dflt

/-! ## Sheet parser and cache gate (`app.py` lines 38–96, 126–172) -/

/-- The structured scan record built by `parse_sheet_data` (`app.py` lines
126–172).  A stock row is the header-keyed mapping, modelled as the
association list of `(header, cell)` pairs in header order. -/
structure Snapshot where
  scan_time : String
  market_regime : String
  dist_days : String
  buy_ok : String
  account_balance : String
  risk_per_trade : String
  actionable : String
  headers : List String
  stocks : List (List (String × String))
  cache_time : ℚ
  deriving DecidableEq

/-- `parse_sheet_data` (`app.py` lines 126–172).  `cacheTimestamp` is the
value of `cache['timestamp']` at parse time (stored as `cache_time`). -/
def parse_sheet_data (cacheTimestamp : ℚ) (rawValues : List (List String)) :
    Option Snapshot :=
  if rawValues = [] ∨ rawValues.length < 5 then none
  else
    let row0 := rawValues.getD 0 []
    let row1 := rawValues.getD 1 []
    let row2 := rawValues.getD 2 []
    let scan_time := if row0.length > 2 then row0.getD 2 "" else "Unknown"
    let market_regime := if row1.length > 0 then row1.getD 0 "" else ""
    let dist_days := if row1.length > 2 then row1.getD 2 "" else ""
    let buy_ok := if row1.length > 4 then row1.getD 4 "" else ""
    let account := if row2.length > 0 then row2.getD 0 "" else ""
    let risk := if row2.length > 2 then row2.getD 2 "" else ""
    let actionable := if row2.length > 4 then row2.getD 4 "" else ""
    let headers := if rawValues.length > 4 then rawValues.getD 4 [] else []
    let stocks :=
      ((rawValues.drop 5).filter fun row => row ≠ [] ∧ row.length > 1).map
        fun row => headers.enum.map fun je => (je.2, row.getD je.1 "")
    some ⟨scan_time, market_regime, dist_days, buy_ok, account, risk, actionable,
          headers, stocks, cacheTimestamp⟩

/-- The module-level `cache` dict (`app.py` lines 38–42). -/
structure Cache where
  data : Option Snapshot
  timestamp : ℚ
  last_scan_time : Option String
  deriving DecidableEq

/-- `CACHE_DURATION` environment default (`app.py` line 19). -/
def CACHE_DURATION : ℚ := 300

/-- `get_cached_data` (`app.py` lines 67–82).  `fetchResult` is the value
returned by `fetch_sheet_data()`: `none` on failure, `some raw` on success
(`some []` when the sheet reply carries no values — falsy in Python, hence
treated like a failure by `if raw_data:`).  Returns the new cache state, the
returned snapshot, and whether a historical snapshot was archived. -/
def get_cached_data (currentTime : ℚ) (forceRefresh : Bool)
    (fetchResult : Option (List (List String))) (c : Cache) :
    Cache × Option Snapshot × Bool :=
  if forceRefresh = true ∨ c.data = none ∨ currentTime - c.timestamp > CACHE_DURATION then
    match fetchResult with
    | some rawData =>
      if rawData ≠ [] then
        let parsed := parse_sheet_data c.timestamp rawData
        let c1 : Cache := { c with data := parsed, timestamp := currentTime }
        match parsed with
        | some s =>
          if some s.scan_time ≠ c.last_scan_time then
            ({ c1 with last_scan_time := some s.scan_time }, some s, true)
          else (c1, some s, false)
        | none => (c1, none, false)
      else (c, c.data, false)
    | none => (c, c.data, false)
  else (c, c.data, false)

/-- A concrete 5-row sheet reply. -/
def sampleRaw : List (List String) :=
  [["CANSLIM", "", "2025-01-01 09:30"], ["Uptrend", "", "2"], ["$100k", "", "$1000"],
   [], ["Ticker", "Pivot", "Stop"]]

/-- The snapshot `sampleRaw` parses to (with `cache_time = 0`). -/
def sampleSnapshot : Snapshot :=
  ⟨"2025-01-01 09:30", "Uptrend", "2", "", "$100k", "$1000", "",
   ["Ticker", "Pivot", "Stop"], [], 0⟩

/-- A cache that already holds `sampleSnapshot`. -/
def sampleCache : Cache := ⟨some sampleSnapshot, 0, none⟩

/-- The startup cache state (`app.py` lines 38–42). -/
def emptyCache : Cache := ⟨none, 0, none⟩

end StockScanner

namespace StockScanner

/-! ## Theorems -/

theorem floorQ_eq_floor (q : ℚ) : floorQ q = ⌊q⌋ := Rat.floor_def.symm

theorem truncQ_eq_floor {q : ℚ} (h : 0 ≤ q) : truncQ q = ⌊q⌋ := by
  rw [Rat.floor_def]
  exact Int.tdiv_eq_ediv (Rat.num_nonneg.mpr h) (Int.natCast_nonneg q.den)

theorem roundHalfEven_intCast (n : ℤ) : roundHalfEven (n : ℚ) = n := by
  unfold roundHalfEven
  rw [floorQ_eq_floor, Int.floor_intCast]
  norm_num

theorem round2_eq_self {q : ℚ} (h : isCents q) : round2 q = q := by
  unfold isCents at h
  unfold round2
  have hq : ((q * 100).num : ℚ) = q * 100 := by
    rw [← Rat.den_eq_one_iff]
    exact h
  rw [← hq, roundHalfEven_intCast, hq]
  field_simp

/-- C1 (amended): for a row whose `Pivot` and `Stop` both parse, with
`Pivot > 0`, `Stop > 0` and `Pivot > Stop`, and a nonnegative
`risk_per_trade`, the Shares field is `floor(risk_per_trade / (Pivot - Stop))`
and the Cost field displays `shares * Pivot` rounded to the nearest whole
dollar (ties to even) by the `"${...:,.0f}"` format — not `shares * Pivot`
exactly; every row failing the condition, including parse failures and
missing fields, gets both fields set to the empty string (`none` here). -/
theorem api_data_shares_cost (riskPerTrade pivot stop : ℚ)
    (hrisk : 0 ≤ riskPerTrade) :
    (pivot > 0 → stop > 0 → pivot > stop →
      annotateStock riskPerTrade (some pivot) (some stop) =
        some (⌊riskPerTrade / (pivot - stop)⌋,
              roundHalfEven ((⌊riskPerTrade / (pivot - stop)⌋ : ℚ) * pivot))) ∧
    (¬(pivot > 0 ∧ stop > 0 ∧ pivot > stop) →
      annotateStock riskPerTrade (some pivot) (some stop) = none) ∧
    annotateStock riskPerTrade none (some stop) = none ∧
    annotateStock riskPerTrade (some pivot) none = none ∧
    annotateStock riskPerTrade none none = none := by
  refine ⟨?_, ?_, rfl, rfl, rfl⟩
  · intro h1 h2 h3
    have hq : 0 ≤ riskPerTrade / (pivot - stop) :=
      div_nonneg hrisk (by linarith)
    simp only [annotateStock, if_pos (⟨h1, h2, h3⟩ : pivot > 0 ∧ stop > 0 ∧ pivot > stop),
      truncQ_eq_floor hq]
  · intro h
    simp only [annotateStock, if_neg h]

theorem api_data_shares_cost_witness :
    annotateStock 1000 (some 2) (some 1) = some (1000, 2000) := by
  have h := (api_data_shares_cost 1000 2 1 (by norm_num)).1
    (by norm_num) (by norm_num) (by norm_num)
  rw [h, ← floorQ_eq_floor]
  decide

/-- C1 counterexample: with the default settings
(`risk_per_trade = 100000 * 0.01 = 1000`), a row with `Pivot = 3.5` and
`Stop = 0.5` gets `shares = int(1000 / 3) = 333`, and the Cost field displays
`$1,166` (the `:,.0f` format rounds), while `shares * Pivot = 1165.5`: the
Cost field does not equal `shares * Pivot` exactly. -/
theorem api_data_cost_counterexample :
    annotateStock 1000 (some (7/2)) (some (1/2)) = some (333, 1166) ∧
    (1166 : ℚ) ≠ (333 : ℚ) * (7/2) := by decide

/-- C2: closing a covered-call trade sets `pnl` by the close status —
`expired` gives `premium_total`; `called_away` gives
`premium_total + (strike - stock_price_at_sell) * contracts * 100`; any other
close status gives `premium_total - buyback_price * contracts * 100` (the
latter two under the `isCents` hypothesis that the exact value is a whole
number of cents, making the code's `round(_, 2)` the identity). -/
theorem api_calls_close_pnl (t : CallsTrade) (status closeDate : String)
    (buybackPrice : ℚ) (notesReq : Option String) (price : ℚ)
    (hp : t.stock_price_at_sell = some price) :
    (status = "expired" →
      (closeCall status closeDate buybackPrice notesReq t).pnl = some t.premium_total) ∧
    (status = "called_away" →
      isCents (t.premium_total + (t.strike - price) * (t.contracts : ℚ) * 100) →
      (closeCall status closeDate buybackPrice notesReq t).pnl =
        some (t.premium_total + (t.strike - price) * (t.contracts : ℚ) * 100)) ∧
    (status ≠ "expired" → status ≠ "called_away" →
      isCents (t.premium_total - buybackPrice * (t.contracts : ℚ) * 100) →
      (closeCall status closeDate buybackPrice notesReq t).pnl =
        some (t.premium_total - buybackPrice * (t.contracts : ℚ) * 100)) := by
  refine ⟨?_, ?_, ?_⟩
  · intro h
    subst h
    simp [closeCall]
  · intro h hc
    subst h
    unfold closeCall
    rw [if_neg (by decide : ¬ ("called_away" : String) = "expired"), if_pos rfl]
    simp only [hp, Option.getD_some]
    exact congrArg some (round2_eq_self hc)
  · intro h1 h2 hc
    unfold closeCall
    rw [if_neg h1, if_neg h2]
    simp only []
    exact congrArg some (round2_eq_self hc)

theorem api_calls_close_pnl_witness :
    (closeCall "called_away" "2025-01-17" 0 none sampleCalledAwayTrade).pnl =
      some 7500 := by
  have h := (api_calls_close_pnl sampleCalledAwayTrade "called_away" "2025-01-17"
    0 none 100 rfl).2.1 rfl (by decide)
  rw [h]
  norm_num [sampleCalledAwayTrade]

/-- C3 counterexample: starting from an empty covered-call store, add, add,
delete the max-id trade (id 2), add: the assigned ids are `[1, 2, 2]` — id 2
is reused after the entity holding the maximum id is deleted, so ids are
neither strictly increasing over time nor never reused. -/
theorem api_calls_id_reuse_counterexample :
    (runCallsOps [.add sampleCallRequest, .add sampleCallRequest, .del 2,
                  .add sampleCallRequest]).2 = [1, 2, 2] ∧
    ¬ (runCallsOps [.add sampleCallRequest, .add sampleCallRequest, .del 2,
                    .add sampleCallRequest]).2.Nodup := by decide

/-- C3 (amended): each new id is `max(existing ids, default 0) + 1`, hence
strictly greater than every id currently in the store, so a new entity never
collides with a live one — in both the covered-call and stock-position
stores.  (After deleting the entity holding the maximum id, the next add may
reuse its id, as the counterexample shows.) -/
theorem next_id_gt_live_ids (trades : List CallsTrade) (positions : List Position) :
    (∀ t ∈ trades, t.id < nextCallId trades) ∧
    (∀ p ∈ positions, p.id < nextPositionId positions) := by
  have aux : ∀ (l : List ℕ) (x : ℕ), x ∈ l → x ≤ l.foldr max 0 := by
    intro l
    induction l with
    | nil => intro x hx; cases hx
    | cons a l ih =>
      intro x hx
      rcases List.mem_cons.mp hx with rfl | h
      · exact le_max_left _ _
      · exact le_trans (ih x h) (le_max_right _ _)
  constructor
  · intro t ht
    exact Nat.lt_succ_of_le (aux _ _ (List.mem_map_of_mem (fun t => t.id) ht))
  · intro p hp
    exact Nat.lt_succ_of_le (aux _ _ (List.mem_map_of_mem (fun p => p.id) hp))

theorem next_id_gt_live_ids_witness :
    (mkCallTrade sampleCallRequest []).id <
      nextCallId [mkCallTrade sampleCallRequest []] ∧
    samplePositionClosed.id < nextPositionId [samplePositionClosed] := by
  exact ⟨(next_id_gt_live_ids [mkCallTrade sampleCallRequest []] []).1 _ (by simp),
         (next_id_gt_live_ids [] [samplePositionClosed]).2 _ (by simp)⟩

/-- C4 counterexample: a long position added with no stop price stores
`stop_price = 0` (not the entry price), so closing it at 15 from entry 10
gives risk `|10 - 0| = 10` and R-multiple `5 / 10 = 1/2`, which is included
in the average: `avg_r_multiple = 1/2 ≠ 0`, while the claim predicts risk 0
and exclusion (hence average 0). -/
theorem positions_stop_default_counterexample :
    (mkPosition samplePositionRequest []).stop_price = some 0 ∧
    (summarizePositions [samplePositionClosed]).avg_r_multiple = 1/2 ∧
    (1/2 : ℚ) ≠ 0 := by decide

/-- C4 (amended): the R-multiple list keeps, for each closed position with
nonzero risk `|entry_price - stop_price|`, the per-share P&L (close−entry for
long, entry−close otherwise) divided by that risk; `avg_r_multiple` is their
average and 0 when there are none.  The stop defaults to `entry_price`
(giving risk 0 and exclusion) only when the record lacks the `stop_price`
key; a position added through the API without a stop stores `stop_price = 0`
(risk `|entry_price|`) and is not excluded. -/
theorem positions_summary_r_multiple (ps : List Position) :
    (rMultiples ps = ps.filterMap fun p =>
      if p.status = "closed" ∧ 0 < riskOf p
      then some (pnlPerShare p / riskOf p) else none) ∧
    ((summarizePositions ps).avg_r_multiple =
      if rMultiples ps = [] then 0
      else (rMultiples ps).sum / ((rMultiples ps).length : ℚ)) ∧
    (∀ req positions, (mkPosition req positions).stop_price =
      some (priceFromRequest req.stop_price)) ∧
    (∀ p : Position, p.stop_price = none → riskOf p = 0) ∧
    (∀ p : Position, p.trade_type = "long" →
      pnlPerShare p = p.close_price.getD 0 - p.entry_price) ∧
    (∀ p : Position, p.trade_type ≠ "long" →
      pnlPerShare p = p.entry_price - p.close_price.getD 0) := by
  refine ⟨?_, ?_, fun req positions => rfl, ?_, ?_, ?_⟩
  · unfold rMultiples
    induction ps with
    | nil => rfl
    | cons p l ih =>
      by_cases h : p.status = "closed" <;> by_cases hr : 0 < riskOf p <;>
        simp [List.filter_cons, List.filterMap_cons, h, hr, ih]
  · by_cases hps : ps = []
    · subst hps
      simp [summarizePositions, rMultiples]
    · by_cases hrs : rMultiples ps = [] <;> simp [summarizePositions, hps, hrs]
  · intro p h
    unfold riskOf
    rw [h]
    simp
  · intro p h
    unfold pnlPerShare
    rw [if_pos h]
  · intro p h
    unfold pnlPerShare
    rw [if_neg h]

theorem positions_summary_r_multiple_witness :
    riskOf samplePositionNoStopKey = 0 ∧
    pnlPerShare samplePositionClosed =
      samplePositionClosed.close_price.getD 0 - samplePositionClosed.entry_price := by
  refine ⟨(positions_summary_r_multiple []).2.2.2.1 samplePositionNoStopKey rfl, ?_⟩
  exact (positions_summary_r_multiple []).2.2.2.2.1 samplePositionClosed rfl

/-- C5: saving a document through the atomic store (write the `.tmp`
sibling, rename it over the target) and then loading the same path returns
exactly the saved document, for every file-system state, path, document and
default. -/
theorem save_load_round_trip (fs : FileSystem) (path : String) (doc dflt : Json) :
    load_json_file (save_json_file fs path doc) path dflt = doc := by
  unfold load_json_file save_json_file renameFile writeFile
  simp

theorem parse_none_of_short (ts : ℚ) (rawValues : List (List String))
    (h : rawValues.length < 5) : parse_sheet_data ts rawValues = none := by
  unfold parse_sheet_data
  rw [if_pos (Or.inr h)]

theorem parse_sheet_data_timestamp (t t' : ℚ) (raw : List (List String)) (s : Snapshot)
    (h : parse_sheet_data t raw = some s) :
    ∃ s' : Snapshot, parse_sheet_data t' raw = some s' ∧ s'.scan_time = s.scan_time := by
  unfold parse_sheet_data at h ⊢
  by_cases hc : (raw = [] ∨ raw.length < 5)
  · rw [if_pos hc] at h
    exact absurd h (by simp)
  · rw [if_neg hc] at h ⊢
    refine ⟨_, rfl, ?_⟩
    rw [Option.some_inj] at h
    rw [← h]

/-- Reduction of `get_cached_data` under a forced, successful fetch whose
reply parses to a snapshot. -/
theorem get_cached_data_fetch_some (c : Cache) (raw : List (List String))
    (now : ℚ) (s : Snapshot) (h : parse_sheet_data c.timestamp raw = some s) :
    get_cached_data now true (some raw) c =
      (if some s.scan_time ≠ c.last_scan_time
       then
        ({ c with data := some s, timestamp := now, last_scan_time := some s.scan_time },
         some s, true)
       else ({ c with data := some s, timestamp := now }, some s, false)) := by
  have hne : raw ≠ [] := by
    intro he
    rw [he, parse_none_of_short _ _ (by decide)] at h
    exact Option.noConfusion h
  unfold get_cached_data
  rw [if_pos (Or.inl rfl)]
  simp only [hne, h, ne_eq, not_false_eq_true, if_true]

/-- C8: parsing a sheet array with fewer than 5 rows (including the empty
array) yields no snapshot; the embedding is a total function, so no
exception can escape. -/
theorem parse_short_sheet_no_snapshot (ts : ℚ) (rawValues : List (List String))
    (h : rawValues.length < 5) : parse_sheet_data ts rawValues = none :=
  parse_none_of_short ts rawValues h

theorem parse_short_sheet_no_snapshot_witness :
    parse_sheet_data 0 [["a"], ["b"]] = none ∧ parse_sheet_data 0 [] = none :=
  ⟨parse_short_sheet_no_snapshot 0 [["a"], ["b"]] (by decide),
   parse_short_sheet_no_snapshot 0 [] (by decide)⟩

/-- C7: when a snapshot is already cached and the fetch fails (`None`), the
cache — snapshot and fetch timestamp — is left unchanged, the stale snapshot
is returned, and that outcome is distinct from the no-data-yet outcome
(`none`). -/
theorem cache_fetch_failure_keeps_stale (c : Cache) (s : Snapshot) (now : ℚ)
    (force : Bool) (h : c.data = some s) :
    get_cached_data now force none c = (c, some s, false) ∧
    some s ≠ (none : Option Snapshot) := by
  constructor
  · unfold get_cached_data
    by_cases hc : (force = true ∨ c.data = none ∨ now - c.timestamp > CACHE_DURATION) <;>
      simp [hc, h]
  · simp

theorem cache_fetch_failure_keeps_stale_witness :
    get_cached_data 400 true none sampleCache = (sampleCache, some sampleSnapshot, false) :=
  (cache_fetch_failure_keeps_stale sampleCache sampleSnapshot 400 true rfl).1

/-- C6: on a forced fetch whose reply parses to snapshot `s`, history is
archived exactly when `s.scan_time` differs from the most recently archived
scan time (`last_scan_time`); the snapshot is returned, `last_scan_time`
afterwards equals `s.scan_time`, and a second fetch of the same reply
archives nothing — the same `scan_time` twice in succession is archived at
most once, never twice in a row. -/
theorem cache_archives_iff_new_scan_time (c : Cache) (raw : List (List String))
    (s : Snapshot) (now : ℚ) (h : parse_sheet_data c.timestamp raw = some s) :
    ((get_cached_data now true (some raw) c).2.2 =
      decide (some s.scan_time ≠ c.last_scan_time)) ∧
    ((get_cached_data now true (some raw) c).2.1 = some s) ∧
    ((get_cached_data now true (some raw) c).1.last_scan_time = some s.scan_time) ∧
    (∀ now' : ℚ,
      (get_cached_data now' true (some raw)
        (get_cached_data now true (some raw) c).1).2.2 = false) := by
  have H := get_cached_data_fetch_some c raw now s h
  by_cases harch : some s.scan_time ≠ c.last_scan_time
  · rw [if_pos harch] at H
    obtain ⟨s', hs', hts⟩ := parse_sheet_data_timestamp c.timestamp now raw s h
    refine ⟨?_, ?_, ?_, ?_⟩
    · rw [H]
      exact (decide_eq_true harch).symm
    · rw [H]
    · rw [H]
    · intro now'
      rw [H]
      have H2 := get_cached_data_fetch_some
        { c with data := some s, timestamp := now, last_scan_time := some s.scan_time }
        raw now' s' hs'
      rw [if_neg (by simp [hts])] at H2
      rw [H2]
  · rw [if_neg harch] at H
    have heq : some s.scan_time = c.last_scan_time := not_ne_iff.mp harch
    obtain ⟨s', hs', hts⟩ := parse_sheet_data_timestamp c.timestamp now raw s h
    refine ⟨?_, ?_, ?_, ?_⟩
    · rw [H]
      exact (decide_eq_false harch).symm
    · rw [H]
    · rw [H]
      exact heq.symm
    · intro now'
      rw [H]
      have H2 := get_cached_data_fetch_some
        { c with data := some s, timestamp := now } raw now' s' hs'
      rw [if_neg (by simp [hts, ← heq])] at H2
      rw [H2]

theorem cache_archives_iff_new_scan_time_witness :
    (get_cached_data 5 true (some sampleRaw) emptyCache).2.2 = true := by
  have h := (cache_archives_iff_new_scan_time emptyCache sampleRaw sampleSnapshot 5
    (by decide)).1
  rw [h]
  decide

/-- C10 counterexample: with a snapshot cached, a successful fetch returning
the empty values array (zero rows, hence fewer than 5) does not overwrite the
cache with `none`: `if raw_data:` treats the empty list as falsy, so the
stale snapshot is retained, its timestamp untouched, and the stale snapshot
is returned. -/
theorem cache_empty_fetch_counterexample :
    get_cached_data 10 true (some []) sampleCache =
      (sampleCache, some sampleSnapshot, false) ∧
    sampleCache.data = some sampleSnapshot := by decide

/-- C10 (amended): a successful fetch returning a nonempty array of fewer
than 5 rows parses to no snapshot and overwrites the cached snapshot with
`none`, updating the fetch timestamp, so the caller receives no data instead
of the retained stale snapshot; a successful fetch returning the empty array,
however, is falsy and is treated like a failure, retaining the cache. -/
theorem cache_short_sheet_overwrites (c : Cache) (raw : List (List String))
    (now : ℚ) (h1 : raw ≠ []) (h2 : raw.length < 5) :
    (get_cached_data now true (some raw) c =
      ({ c with data := none, timestamp := now }, none, false)) ∧
    (get_cached_data now true (some []) c = (c, c.data, false)) := by
  constructor
  · unfold get_cached_data
    rw [if_pos (Or.inl rfl)]
    simp only [h1, parse_none_of_short c.timestamp raw h2, ne_eq,
      not_false_eq_true, if_true]
  · unfold get_cached_data
    rw [if_pos (Or.inl rfl)]
    simp

theorem cache_short_sheet_overwrites_witness :
    get_cached_data 10 true (some [["x"]]) sampleCache =
      ({ sampleCache with data := none, timestamp := 10 }, none, false) :=
  (cache_short_sheet_overwrites sampleCache [["x"]] 10 (by decide) (by decide)).1

theorem sum_map_filter_add {α M : Type _} [AddCommMonoid M]
    (l : List α) (p : α → Bool) (w : α → M) :
    ((l.filter p).map w).sum + ((l.filter fun a => !(p a)).map w).sum = (l.map w).sum := by
  induction l with
  | nil => simp
  | cons a l ih =>
    by_cases h : p a <;>
      simp only [List.filter_cons, h, Bool.not_true, Bool.not_false, if_true, if_false,
        ite_true, ite_false, List.map_cons, List.sum_cons] <;>
      rw [← ih] <;> abel_nf

theorem sum_map_filter_eq_sum_ite {α M : Type _} [AddCommMonoid M]
    (l : List α) (p : α → Bool) (w : α → M) :
    ((l.filter p).map w).sum = (l.map fun a => if p a then w a else 0).sum := by
  induction l with
  | nil => rfl
  | cons a l ih => by_cases h : p a <;> simp [List.filter_cons, h, ih]

theorem length_filter_eq_sum_ite {α : Type _} (l : List α) (p : α → Bool) :
    (l.filter p).length = (l.map fun a => if p a then (1 : ℕ) else 0).sum := by
  induction l with
  | nil => rfl
  | cons a l ih =>
    by_cases h : p a <;> simp [List.filter_cons, h, ih] <;> omega

theorem length_eq_sum_ones {α : Type _} (l : List α) :
    l.length = (l.map fun _ => (1 : ℕ)).sum := by
  induction l with
  | nil => rfl
  | cons a t ih =>
    simp only [List.length_cons, List.map_cons, List.sum_cons, ih]
    omega

/-- Summing a per-element weight fiberwise over a duplicate-free list of keys
that covers the list equals summing it over the whole list. -/
theorem sum_over_keys {α β M : Type _} [DecidableEq β] [AddCommMonoid M]
    (key : α → β) (w : α → M) :
    ∀ (ks : List β) (l : List α), ks.Nodup → (∀ x ∈ l, key x ∈ ks) →
      (ks.map fun k => ((l.filter fun x => key x = k).map w).sum).sum = (l.map w).sum := by
  intro ks
  induction ks with
  | nil =>
    intro l _ hcov
    cases l with
    | nil => simp
    | cons a t => exact absurd (hcov a (List.mem_cons_self a t)) (List.not_mem_nil _)
  | cons k ks ih =>
    intro l hnd hcov
    obtain ⟨hknot, hnd'⟩ := List.nodup_cons.mp hnd
    rw [List.map_cons, List.sum_cons]
    have htail : ∀ k' ∈ ks,
        ((l.filter fun x => key x = k').map w).sum =
          (((l.filter fun x => !(decide (key x = k))).filter
              fun x => key x = k').map w).sum := by
      intro k' hk'
      have hfil : (l.filter fun x => key x = k')
          = ((l.filter fun x => !(decide (key x = k))).filter fun x => key x = k') := by
        rw [List.filter_filter]
        apply List.filter_congr
        intro x _
        by_cases hxk' : key x = k'
        · have hkk' : k ≠ k' := fun he => hknot (he ▸ hk')
          have hxk : decide (key x = k) = false :=
            decide_eq_false fun hk => hkk' (hk.symm.trans hxk')
          simp [hxk', hxk]
          exact fun he => hknot (he ▸ hk')
        · simp [hxk']
      rw [hfil]
    rw [List.map_congr_left htail,
      ih (l.filter fun x => !(decide (key x = k))) hnd' ?cov]
    · exact sum_map_filter_add l (fun x => decide (key x = k)) w
    case cov =>
      intro x hx
      have hx' : x ∈ l := List.mem_of_mem_filter hx
      have hne : ¬(key x = k) := by
        have := List.of_mem_filter hx
        simpa using this
      rcases List.mem_cons.mp (hcov x hx') with he | hm
      · exact absurd he hne
      · exact hm

/-- The additive fields of `_summarize`, written as sums/filters over the
subset (both branches of the empty test agree). -/
theorem summarizeCalls_fields (subset : List CallsTrade) (capital : ℚ) :
    (summarizeCalls subset capital).total_premium =
      (subset.map fun t => t.premium_total).sum ∧
    (summarizeCalls subset capital).total_pnl =
      ((subset.filter fun t => t.status ≠ "open").map
        fun t => t.pnl.getD t.premium_total).sum ∧
    (summarizeCalls subset capital).total_trades = subset.length ∧
    (summarizeCalls subset capital).expired =
      (subset.filter fun t => t.status = "expired").length ∧
    (summarizeCalls subset capital).called_away =
      (subset.filter fun t => t.status = "called_away").length ∧
    (summarizeCalls subset capital).open_count =
      (subset.filter fun t => t.status = "open").length := by
  cases subset with
  | nil => simp [summarizeCalls]
  | cons a l => simp [summarizeCalls]

/-- C9: the per-ticker buckets of `_calls_summary` partition the trades
(keyed by `t.get('ticker', 'SPY')`), so each additive overall field —
total_premium, total_pnl, total_trades, and the expired / called_away / open
counts — equals the sum of that field over the `by_ticker` entries. -/
theorem calls_summary_partition (trades : List CallsTrade) :
    ((callsSummary trades).1.total_premium =
      ((callsSummary trades).2.map fun e => e.2.total_premium).sum) ∧
    ((callsSummary trades).1.total_pnl =
      ((callsSummary trades).2.map fun e => e.2.total_pnl).sum) ∧
    ((callsSummary trades).1.total_trades =
      ((callsSummary trades).2.map fun e => e.2.total_trades).sum) ∧
    ((callsSummary trades).1.expired =
      ((callsSummary trades).2.map fun e => e.2.expired).sum) ∧
    ((callsSummary trades).1.called_away =
      ((callsSummary trades).2.map fun e => e.2.called_away).sum) ∧
    ((callsSummary trades).1.open_count =
      ((callsSummary trades).2.map fun e => e.2.open_count).sum) := by
  have hnd : (callsTickers trades).Nodup := by
    unfold callsTickers
    by_cases htr : trades = []
    · simp [htr]
    · rw [if_neg htr]
      exact (List.perm_insertionSort _ _).nodup_iff.mpr (List.nodup_dedup _)
  have hcov : ∀ t ∈ trades, tickerKey t ∈ callsTickers trades := by
    intro t ht
    unfold callsTickers
    by_cases htr : trades = []
    · subst htr
      cases ht
    · rw [if_neg htr, (List.perm_insertionSort _ _).mem_iff]
      exact List.mem_dedup.mpr (List.mem_map_of_mem _ ht)
  have hbucketQ : ∀ w : CallsTrade → ℚ,
      ((callsTickers trades).map fun tk =>
        ((trades.filter fun t => tickerKey t = tk).map w).sum).sum = (trades.map w).sum :=
    fun w => sum_over_keys tickerKey w (callsTickers trades) trades hnd hcov
  have hbucketN : ∀ w : CallsTrade → ℕ,
      ((callsTickers trades).map fun tk =>
        ((trades.filter fun t => tickerKey t = tk).map w).sum).sum = (trades.map w).sum :=
    fun w => sum_over_keys tickerKey w (callsTickers trades) trades hnd hcov
  refine ⟨?_, ?_, ?_, ?_, ?_, ?_⟩
  · have hby : ((callsSummary trades).2.map fun e => e.2.total_premium)
        = (callsTickers trades).map fun tk =>
            ((trades.filter fun t => tickerKey t = tk).map fun t => t.premium_total).sum := by
      unfold callsSummary
      rw [List.map_map]
      exact List.map_congr_left fun tk _ => (summarizeCalls_fields _ 100000).1
    rw [hby, hbucketQ]
    show (summarizeCalls trades 100000).total_premium = _
    exact (summarizeCalls_fields trades 100000).1
  · have hby : ((callsSummary trades).2.map fun e => e.2.total_pnl)
        = (callsTickers trades).map fun tk =>
            ((trades.filter fun t => tickerKey t = tk).map
              fun t => if decide (t.status ≠ "open") then t.pnl.getD t.premium_total
                       else 0).sum := by
      unfold callsSummary
      rw [List.map_map]
      refine List.map_congr_left fun tk _ => ?_
      show (summarizeCalls (trades.filter fun t => tickerKey t = tk) 100000).total_pnl = _
      rw [(summarizeCalls_fields _ 100000).2.1, sum_map_filter_eq_sum_ite]
    rw [hby, hbucketQ]
    show (summarizeCalls trades 100000).total_pnl = _
    rw [(summarizeCalls_fields trades 100000).2.1, sum_map_filter_eq_sum_ite]
  · have hby : ((callsSummary trades).2.map fun e => e.2.total_trades)
        = (callsTickers trades).map fun tk =>
            ((trades.filter fun t => tickerKey t = tk).map fun _ => (1 : ℕ)).sum := by
      unfold callsSummary
      rw [List.map_map]
      refine List.map_congr_left fun tk _ => ?_
      show (summarizeCalls (trades.filter fun t => tickerKey t = tk) 100000).total_trades = _
      rw [(summarizeCalls_fields _ 100000).2.2.1, length_eq_sum_ones]
    rw [hby, hbucketN]
    show (summarizeCalls trades 100000).total_trades = _
    rw [(summarizeCalls_fields trades 100000).2.2.1, length_eq_sum_ones]
  · have hby : ((callsSummary trades).2.map fun e => e.2.expired)
        = (callsTickers trades).map fun tk =>
            ((trades.filter fun t => tickerKey t = tk).map
              fun t => if decide (t.status = "expired") then (1 : ℕ) else 0).sum := by
      unfold callsSummary
      rw [List.map_map]
      refine List.map_congr_left fun tk _ => ?_
      show (summarizeCalls (trades.filter fun t => tickerKey t = tk) 100000).expired = _
      rw [(summarizeCalls_fields _ 100000).2.2.2.1, length_filter_eq_sum_ite]
    rw [hby, hbucketN]
    show (summarizeCalls trades 100000).expired = _
    rw [(summarizeCalls_fields trades 100000).2.2.2.1, length_filter_eq_sum_ite]
  · have hby : ((callsSummary trades).2.map fun e => e.2.called_away)
        = (callsTickers trades).map fun tk =>
            ((trades.filter fun t => tickerKey t = tk).map
              fun t => if decide (t.status = "called_away") then (1 : ℕ) else 0).sum := by
      unfold callsSummary
      rw [List.map_map]
      refine List.map_congr_left fun tk _ => ?_
      show (summarizeCalls (trades.filter fun t => tickerKey t = tk) 100000).called_away = _
      rw [(summarizeCalls_fields _ 100000).2.2.2.2.1, length_filter_eq_sum_ite]
    rw [hby, hbucketN]
    show (summarizeCalls trades 100000).called_away = _
    rw [(summarizeCalls_fields trades 100000).2.2.2.2.1, length_filter_eq_sum_ite]
  · have hby : ((callsSummary trades).2.map fun e => e.2.open_count)
        = (callsTickers trades).map fun tk =>
            ((trades.filter fun t => tickerKey t = tk).map
              fun t => if decide (t.status = "open") then (1 : ℕ) else 0).sum := by
      unfold callsSummary
      rw [List.map_map]
      refine List.map_congr_left fun tk _ => ?_
      show (summarizeCalls (trades.filter fun t => tickerKey t = tk) 100000).open_count = _
      rw [(summarizeCalls_fields _ 100000).2.2.2.2.2, length_filter_eq_sum_ite]
    rw [hby, hbucketN]
    show (summarizeCalls trades 100000).open_count = _
    rw [(summarizeCalls_fields trades 100000).2.2.2.2.2, length_filter_eq_sum_ite]

end StockScanner
